import Mathlib

/-!
# Verification of the UpscalerJS benchmarking pipeline

Shallow embedding of the dataset-caching and benchmarking code in
`docs/src/pages/demo/index.tsx` (the `Dataset` / `Benchmarker` classes and the
`benchmarkPerformance` entry point), together with the subprocess helper
`callExec` (`test/lib/utils/callExec`).

JavaScript numbers that matter here are either integer pixel sizes (modelled
as `ℕ`), possibly-fractional arithmetic on them (modelled as `ℚ`), or the
special values `NaN`/`Infinity` produced by `parseFloat` and by division
(modelled by the `JsNum` type).  I/O is modelled by explicit environments:
a size environment mapping file paths to image dimensions, a filesystem
environment mapping a directory to its (recursively collected) image file
list, and an exec environment mapping a command line to the chunks the
spawned process emits.  Image operations performed by `sharp` are recorded
as `ImgOp` events so that "no image derivation work" is a statement about
the recorded operation list.
-/

namespace UpscalerJS

/-- A JavaScript number as needed by this pipeline: `NaN`, `±Infinity`,
or an exact rational. -/
inductive JsNum
  | nan
  | inf
  | negInf
  | num (q : ℚ)
deriving DecidableEq, Repr

/-- JavaScript `+` on `JsNum` (the cases reachable in this pipeline). -/
def jsAdd : JsNum → JsNum → JsNum
  | .nan, _ => .nan
  | _, .nan => .nan
  | .inf, .negInf => .nan
  | .negInf, .inf => .nan
  | .inf, _ => .inf
  | _, .inf => .inf
  | .negInf, _ => .negInf
  | _, .negInf => .negInf
  | .num a, .num b => .num (a + b)

/-- JavaScript division of a `JsNum` by an array length (a natural number):
`0 / 0` is `NaN`, `q / 0` is `±Infinity` for `q ≠ 0`. -/
def jsDivByLen : JsNum → ℕ → JsNum
  | .nan, _ => .nan
  | .inf, _ => .inf
  | .negInf, _ => .negInf
  | .num a, 0 => if a = 0 then .nan else if 0 < a then .inf else .negInf
  | .num a, (n + 1) => .num (a / (n + 1))

/-- `avg = arr => arr.reduce((sum, num) => sum + num, 0) / arr.length`
(line 92 of the benchmark script). -/
def jsAvg (arr : List JsNum) : JsNum :=
  jsDivByLen (arr.foldl jsAdd (JsNum.num 0)) arr.length

/-- The arithmetic mean exactly as the specification words it: sum divided by
count, `NaN` on an empty collection.  Used on the specification side of the
aggregation claims, to be compared with the code-side `jsAvg`. -/
def specMean (l : List ℚ) : JsNum :=
  if l.length = 0 then .nan else .num (l.sum / l.length)

/-- Association-list lookup, modelling JavaScript object property read. -/
def alookup {α β : Type} [DecidableEq α] : List (α × β) → α → Option β
  | [], _ => none
  | (k, v) :: rest, a => if k = a then some v else alookup rest a

/-- Association-list update, modelling JavaScript object property write:
an existing key keeps its position, a new key is appended (JS insertion
order). -/
def aset {α β : Type} [DecidableEq α] : List (α × β) → α → β → List (α × β)
  | [], a, b => [(a, b)]
  | (k, v) :: rest, a, b => if k = a then (k, b) :: rest else (k, v) :: aset rest a b

/-- `ImagePackage`: a materialized image artifact plus its recorded pixel
dimensions.  Dimensions are rationals because the script stores the result
of JavaScript `/`, which need not be integral. -/
structure ImagePackage where
  path : String
  width : ℚ
  height : ℚ
deriving DecidableEq, Repr

/-- The `{original, downscaled}` pair stored per crop size. -/
structure CroppedPair where
  original : ImagePackage
  downscaled : ImagePackage
deriving DecidableEq, Repr

/-- `ProcessedFileDefinition` from the benchmark script. -/
structure ProcessedFileDefinition where
  original : ImagePackage
  downscaled : ImagePackage
  cropped : List (ℕ × CroppedPair)
  fileName : String
deriving DecidableEq, Repr

/-- Scale → processed file, the inner record of the database. -/
abbrev ScaleMap := List (ℕ × ProcessedFileDefinition)

/-- `DatasetDatabase = Record<string, Record<number, ProcessedFileDefinition>>`. -/
abbrev DatasetDatabase := List (String × ScaleMap)

/-- Read `database[fileName]?.[scale]`. -/
def dbGet (db : DatasetDatabase) (fileName : String) (scale : ℕ) :
    Option ProcessedFileDefinition :=
  (alookup db fileName).bind (fun m => alookup m scale)

/-- `DatasetDefinition`: name plus optional source path. -/
structure DatasetDefinition where
  name : String
  path : Option String
deriving DecidableEq, Repr

/-- One `sharp` image-derivation operation performed during dataset
preparation. -/
inductive ImgOp
  | resizeOriginal (fileName : String) (scale : ℕ)
  | resizeDownscaled (fileName : String) (scale : ℕ)
  | cropExtract (fileName : String) (scale crop : ℕ)
  | cropResize (fileName : String) (scale crop : ℕ)
deriving DecidableEq, Repr

/-- Whether an operation derives a cropped artifact. -/
def ImgOp.isCrop : ImgOp → Bool
  | .cropExtract _ _ _ => true
  | .cropResize _ _ _ => true
  | _ => false

/-- The in-memory database together with the image operations performed so
far. -/
structure PrepState where
  db : DatasetDatabase
  ops : List ImgOp
deriving DecidableEq, Repr

/-- Size environment: `getSize` of a source file path (width, height). -/
def SizeEnv : Type := String → ℕ × ℕ

/-- `CACHE_DIR` (resolved against the repository root). -/
def CACHE_DIR : String := "tmp/datasets"

/-- `getWritableName`: cache path for an artifact of this dataset.  The
source splits on `.` and re-joins with `.` (an identity), then replaces
`/` with `-`. -/
def getWritableName (folder nm : String) : String :=
  CACHE_DIR ++ "/" ++ folder ++ "/" ++ (nm.replace "/" "-")

/-- `saveImage`: writes the buffer and returns the `.png` cache path. -/
def saveImage (folder nm : String) : String :=
  getWritableName folder nm ++ ".png"

/-- `saveDatabase(key, {[scale]: entry})`: shallow-merges the payload into
the existing record for `key` (`{...this.database[key], ...payload}`), i.e.
replaces the entry at `scale` and keeps the other scales. -/
def saveDatabaseEntry (db : DatasetDatabase) (key : String) (scale : ℕ)
    (entry : ProcessedFileDefinition) : DatasetDatabase :=
  aset db key (aset ((alookup db key).getD []) scale entry)

/-- `processOriginal(filePath, filename)` from `Dataset.prepare`
(lines 200–235): skip if `database[filename]?.[scale]` exists; otherwise
derive `original` at dimensions `Math.floor(n / scale) * scale` (fit cover,
flattened on white) and `downscaled` at dimensions `n / scale` — note the
raw `width`/`height`, not the floored original dimensions — and record both
through `saveDatabase`. -/
def processOriginal (env : SizeEnv) (dsName : String) (scale : ℕ)
    (st : PrepState) (filePath fileName : String) : PrepState :=
  match dbGet st.db fileName scale with
  | some _ => st
  | none =>
    let wh := env filePath
    let width : ℚ := wh.1
    let height : ℚ := wh.2
    let originalWidth : ℚ := (Int.floor (width / (scale : ℚ)) : ℤ) * (scale : ℚ)
    let originalHeight : ℚ := (Int.floor (height / (scale : ℚ)) : ℤ) * (scale : ℚ)
    let ops1 := st.ops ++ [ImgOp.resizeOriginal fileName scale]
    let originalPath := saveImage dsName (fileName ++ "-scale-" ++ toString scale ++ "-original")
    let downscaledWidth : ℚ := width / (scale : ℚ)
    let downscaledHeight : ℚ := height / (scale : ℚ)
    let ops2 := ops1 ++ [ImgOp.resizeDownscaled fileName scale]
    let downscaledPath := saveImage dsName (fileName ++ "-scale-" ++ toString scale ++ "-downscaled")
    let entry : ProcessedFileDefinition :=
      { original := { path := originalPath, width := originalWidth, height := originalHeight }
        downscaled := { path := downscaledPath, width := downscaledWidth, height := downscaledHeight }
        cropped := []
        fileName := fileName }
    { db := saveDatabaseEntry st.db fileName scale entry, ops := ops2 }

/-- The cache check at the top of `processFile`: `return` when the scale
entry exists and either no crop was requested (`cropped === undefined`) or
the requested crop size is already cached. -/
def prepHit (db : DatasetDatabase) (scale : ℕ) (cropped : Option ℕ)
    (fileName : String) : Bool :=
  match dbGet db fileName scale with
  | some pf =>
    match cropped with
    | none => true
    | some c => (alookup pf.cropped c).isSome
  | none => false

/-- `processFile({file, filePath})` from `Dataset.prepare` (lines 236–291):
cache check (`return` if the scale entry exists and either no crop was
requested or that crop already exists), then `processOriginal`, then — only
when `cropped` is truthy (nonzero) and not yet cached — derive the centered
crop and its downscale and merge them into the entry. -/
def processFile (env : SizeEnv) (dsName : String) (scale : ℕ)
    (cropped : Option ℕ) (st : PrepState) (f : String × String) : PrepState :=
  let fileName := f.1
  if prepHit st.db scale cropped fileName then st
  else
    let st1 := processOriginal env dsName scale st f.2 fileName
    match dbGet st1.db fileName scale with
    | none => st1
    | some pf =>
      match cropped with
      | none => st1
      | some c =>
        if c ≠ 0 ∧ alookup pf.cropped c = none then
          let originalCroppedWidth : ℚ := c
          let originalCroppedHeight : ℚ := c
          let _top : ℚ := pf.original.height / 2 - originalCroppedHeight / 2
          let _left : ℚ := pf.original.width / 2 - originalCroppedWidth / 2
          let ops1 := st1.ops ++ [ImgOp.cropExtract fileName scale c]
          let originalCroppedPath :=
            saveImage dsName (fileName ++ "-scale-" ++ toString scale ++ "-cropped-" ++ toString c ++ "-original")
          let downscaledCroppedWidth : ℚ := originalCroppedWidth / (scale : ℚ)
          let downscaledCroppedHeight : ℚ := originalCroppedHeight / (scale : ℚ)
          let ops2 := ops1 ++ [ImgOp.cropResize fileName scale c]
          let downscaledCroppedPath :=
            saveImage dsName (fileName ++ "-scale-" ++ toString scale ++ "-cropped-" ++ toString c ++ "-downscaled")
          let newCrop : CroppedPair :=
            { original := { path := originalCroppedPath, width := originalCroppedWidth, height := originalCroppedHeight }
              downscaled := { path := downscaledCroppedPath, width := downscaledCroppedWidth, height := downscaledCroppedHeight } }
          let newPf : ProcessedFileDefinition :=
            { pf with cropped := aset pf.cropped c newCrop }
          { db := saveDatabaseEntry st1.db fileName scale newPf, ops := ops2 }
        else st1

/-- `Dataset.prepare`: the asyncPool(20, files, processFile) loop.  The pool
runs file tasks with bounded concurrency; distinct files touch distinct
database keys, and we model the iteration as a sequential fold. -/
def prepare (env : SizeEnv) (dsName : String) (scale : ℕ) (cropped : Option ℕ)
    (files : List (String × String)) (st : PrepState) : PrepState :=
  files.foldl (processFile env dsName scale cropped) st

/-- The configuration error thrown by `Dataset.initialize` when the dataset
definition carries no usable path. -/
def missingPathMessage (nm : String) : String :=
  "The dataset " ++ nm ++ " has not been fully processed, and no path to the dataset was passed. Please pass a valid path so that the dataset can be processed and cached."

/-- `Dataset.initialize(scale, cropped)` (lines 137–157): fail when the
definition path is falsy (absent or the empty string); otherwise walk the
source directory (the filesystem environment returns the recursively
collected image files) and run `prepare` over them.  The operation list of
the returned state records every image derivation performed. -/
def initDataset (fsEnv : String → List String) (env : SizeEnv)
    (defn : DatasetDefinition) (db : DatasetDatabase) (scale : ℕ)
    (cropped : Option ℕ) : Except String PrepState :=
  match defn.path with
  | none => .error (missingPathMessage defn.name)
  | some p =>
    if p = "" then .error (missingPathMessage defn.name)
    else
      let files := (fsEnv p).map (fun file => (file, p ++ "/" ++ file))
      .ok (prepare env defn.name scale cropped files { db := db, ops := [] })

/-! ### The fallible preparation pipeline

The definitions above model every `sharp` operation as succeeding.  That is
adequate for the claims whose statements do not depend on `sharp`'s input
validation, but `sharp` in fact validates its arguments: `resize` requires
positive *integer* width and height (the script can request the fractional
`width / scale`), and `extract` additionally requires integer, in-bounds
offsets.  An invalid argument makes the operation reject, the rejection
propagates out of `processFile`/`initialize`, and — crucially — it occurs
*before* the corresponding `saveDatabase` call, so nothing is recorded for
that file.  The `…E` definitions below refine the pipeline with exactly
this error path; a failure aborts the run but keeps the state (database
mutations already performed persist, matching the write-through cache). -/

/-- `sharp`'s validation of `resize({width, height})`: both must be
positive integers. -/
def validResizeDims (w h : ℚ) : Prop :=
  w.den = 1 ∧ 0 < w ∧ h.den = 1 ∧ 0 < h

instance (w h : ℚ) : Decidable (validResizeDims w h) := by
  unfold validResizeDims
  infer_instance

/-- `sharp`'s validation of `extract({left, top, width, height})` against an
image of dimensions `iw × ih`: integer non-negative offsets, positive
integer extent, within bounds. -/
def validExtract (left top w h iw ih : ℚ) : Prop :=
  left.den = 1 ∧ 0 ≤ left ∧ top.den = 1 ∧ 0 ≤ top ∧
  w.den = 1 ∧ 0 < w ∧ h.den = 1 ∧ 0 < h ∧
  left + w ≤ iw ∧ top + h ≤ ih

instance (left top w h iw ih : ℚ) : Decidable (validExtract left top w h iw ih) := by
  unfold validExtract
  infer_instance

/-- The message of a `sharp` resize-argument rejection. -/
def sharpResizeMsg : String := "sharp: expected positive integer for resize width and height"

/-- The message of a `sharp` extract-argument rejection. -/
def sharpExtractMsg : String := "sharp: bad extract area"

/-- `processOriginal` with `sharp`'s validation (refining `processOriginal`
above): the original resize is checked first (its floored dimensions can be
zero for a source smaller than the scale), then — after the original buffer
is produced and saved — the downscale resize at the raw `width / scale`,
`height / scale`, which is fractional whenever the raw dimensions are not
multiples of the scale; a rejection happens before `saveDatabase`, so no
entry is recorded for the file. -/
def processOriginalE (env : SizeEnv) (dsName : String) (scale : ℕ)
    (st : PrepState) (filePath fileName : String) : PrepState × Option String :=
  match dbGet st.db fileName scale with
  | some _ => (st, none)
  | none =>
    let wh := env filePath
    let width : ℚ := wh.1
    let height : ℚ := wh.2
    let originalWidth : ℚ := (Int.floor (width / (scale : ℚ)) : ℤ) * (scale : ℚ)
    let originalHeight : ℚ := (Int.floor (height / (scale : ℚ)) : ℤ) * (scale : ℚ)
    if validResizeDims originalWidth originalHeight then
      let ops1 := st.ops ++ [ImgOp.resizeOriginal fileName scale]
      let originalPath := saveImage dsName (fileName ++ "-scale-" ++ toString scale ++ "-original")
      let downscaledWidth : ℚ := width / (scale : ℚ)
      let downscaledHeight : ℚ := height / (scale : ℚ)
      if validResizeDims downscaledWidth downscaledHeight then
        let ops2 := ops1 ++ [ImgOp.resizeDownscaled fileName scale]
        let downscaledPath := saveImage dsName (fileName ++ "-scale-" ++ toString scale ++ "-downscaled")
        let entry : ProcessedFileDefinition :=
          { original := { path := originalPath, width := originalWidth, height := originalHeight }
            downscaled := { path := downscaledPath, width := downscaledWidth, height := downscaledHeight }
            cropped := []
            fileName := fileName }
        ({ db := saveDatabaseEntry st.db fileName scale entry, ops := ops2 }, none)
      else ({ db := st.db, ops := ops1 }, some sharpResizeMsg)
    else (st, some sharpResizeMsg)

/-- `processFile` with `sharp`'s validation (refining `processFile` above):
a rejection of `processOriginal` propagates; in the crop branch, `extract`
rejects on fractional or out-of-bounds offsets (a centered crop with odd
remainder gives a fractional `top`/`left`) and the crop downscale rejects
on a fractional `cropSize / scale`, each before the corresponding
`saveDatabase`. -/
def processFileE (env : SizeEnv) (dsName : String) (scale : ℕ)
    (cropped : Option ℕ) (st : PrepState) (f : String × String) : PrepState × Option String :=
  if prepHit st.db scale cropped f.1 then (st, none)
  else
    let r := processOriginalE env dsName scale st f.2 f.1
    match r.2 with
    | some e => (r.1, some e)
    | none =>
      match dbGet r.1.db f.1 scale with
      | none => (r.1, none)
      | some pf =>
        match cropped with
        | none => (r.1, none)
        | some c =>
          if c ≠ 0 ∧ alookup pf.cropped c = none then
            let originalCroppedWidth : ℚ := c
            let originalCroppedHeight : ℚ := c
            let top : ℚ := pf.original.height / 2 - originalCroppedHeight / 2
            let left : ℚ := pf.original.width / 2 - originalCroppedWidth / 2
            if validExtract left top originalCroppedWidth originalCroppedHeight
                pf.original.width pf.original.height then
              let ops1 := r.1.ops ++ [ImgOp.cropExtract f.1 scale c]
              let originalCroppedPath :=
                saveImage dsName (f.1 ++ "-scale-" ++ toString scale ++ "-cropped-" ++ toString c ++ "-original")
              let downscaledCroppedWidth : ℚ := originalCroppedWidth / (scale : ℚ)
              let downscaledCroppedHeight : ℚ := originalCroppedHeight / (scale : ℚ)
              if validResizeDims downscaledCroppedWidth downscaledCroppedHeight then
                let ops2 := ops1 ++ [ImgOp.cropResize f.1 scale c]
                let downscaledCroppedPath :=
                  saveImage dsName (f.1 ++ "-scale-" ++ toString scale ++ "-cropped-" ++ toString c ++ "-downscaled")
                let newCrop : CroppedPair :=
                  { original := { path := originalCroppedPath, width := originalCroppedWidth, height := originalCroppedHeight }
                    downscaled := { path := downscaledCroppedPath, width := downscaledCroppedWidth, height := downscaledCroppedHeight } }
                let newPf : ProcessedFileDefinition :=
                  { pf with cropped := aset pf.cropped c newCrop }
                ({ db := saveDatabaseEntry r.1.db f.1 scale newPf, ops := ops2 }, none)
              else ({ db := r.1.db, ops := ops1 }, some sharpResizeMsg)
            else (r.1, some sharpExtractMsg)
          else (r.1, none)

/-- The `asyncPool(20, files, processFile)` loop of the fallible pipeline,
modelled sequentially: the first rejection aborts the iteration; entries
already written stay in the database. -/
def prepareE (env : SizeEnv) (dsName : String) (scale : ℕ) (cropped : Option ℕ) :
    List (String × String) → PrepState → PrepState × Option String
  | [], st => (st, none)
  | f :: fs, st =>
    match processFileE env dsName scale cropped st f with
    | (st1, none) => prepareE env dsName scale cropped fs st1
    | (st1, some e) => (st1, some e)

/-- `Dataset.initialize` over the fallible pipeline. -/
def initDatasetE (fsEnv : String → List String) (env : SizeEnv)
    (defn : DatasetDefinition) (db : DatasetDatabase) (scale : ℕ)
    (cropped : Option ℕ) : PrepState × Option String :=
  match defn.path with
  | none => ({ db := db, ops := [] }, some (missingPathMessage defn.name))
  | some p =>
    if p = "" then ({ db := db, ops := [] }, some (missingPathMessage defn.name))
    else
      let files := (fsEnv p).map (fun file => (file, p ++ "/" ++ file))
      prepareE env defn.name scale cropped files { db := db, ops := [] }

/-- The invariant claimed of every cached entry: the recorded downscaled
dimensions times the entry's scale equal the recorded original dimensions
(equivalently, downscaled = original / scale exactly). -/
def CacheInv (db : DatasetDatabase) : Prop :=
  ∀ fn s pf, dbGet db fn s = some pf →
    pf.downscaled.width * (s : ℚ) = pf.original.width ∧
    pf.downscaled.height * (s : ℚ) = pf.original.height

/-- The `{original, downscaled, fileName}` triple returned by
`Dataset.getFiles`. -/
structure FileTriple where
  original : ImagePackage
  downscaled : ImagePackage
  fileName : String
deriving DecidableEq, Repr

/-- A JavaScript `Array.prototype.map` whose callback may throw: the first
exception aborts the whole map. -/
def exceptMapM {ε α β : Type} (f : α → Except ε β) : List α → Except ε (List β)
  | [] => .ok []
  | a :: as =>
    match f a with
    | .error e => .error e
    | .ok b =>
      match exceptMapM f as with
      | .error e => .error e
      | .ok bs => .ok (b :: bs)

/-- The body of the `fileNames.map` callback in `Dataset.getFiles`: read
`database[fileName][scale]` (a `TypeError` when the scale entry is absent —
modelled as an error), and when `cropped` is truthy (`if (cropped)`: `0` is
falsy) return the cropped pair, throwing `No cropping exists for <c>` when
that exact crop size is missing. -/
def getFileEntry (db : DatasetDatabase) (scale : ℕ) (cropped : Option ℕ)
    (fileName : String) : Except String FileTriple :=
  match dbGet db fileName scale with
  | none => .error "TypeError: cannot read properties of undefined"
  | some file =>
    match cropped with
    | some c =>
      if c = 0 then
        .ok { original := file.original, downscaled := file.downscaled, fileName := file.fileName }
      else
        match alookup file.cropped c with
        | none => .error ("No cropping exists for " ++ toString c)
        | some cp =>
          .ok { original := cp.original, downscaled := cp.downscaled, fileName := file.fileName }
    | none =>
      .ok { original := file.original, downscaled := file.downscaled, fileName := file.fileName }

/-- `Dataset.getFiles(scale, cropped)` (lines 298–319):
`Object.keys(this.database).sort()` (default lexicographic string sort,
modelled by insertion sort under `≤`), then map `getFileEntry` over the
sorted keys. -/
def getFilesSorted (db : DatasetDatabase) (scale : ℕ) (cropped : Option ℕ) :
    Except String (List FileTriple) :=
  let fileNames := (db.map Prod.fst).insertionSort (· ≤ ·)
  exceptMapM (getFileEntry db scale cropped) fileNames

/-! ## The subprocess layer: `callExec`, `runScript`, `calculatePerformance` -/

/-- What the external process does for a command: the chunks it writes to
stdout, the chunks it writes to stderr, and `some message` if `exec`
reports an error (nonzero exit). -/
structure ExecResult where
  stdoutChunks : List String
  stderrChunks : List String
  execError : Option String
deriving DecidableEq, Repr

/-- Exec environment: behaviour of the external tool per command line. -/
def ExecEnv : Type := String → ExecResult

/-- `callExec(cmd, options, stdout?)` from `test/lib/utils/callExec`: a
three-parameter helper.  The stdout chunks are delivered to the `stdout`
callback when one is given; stderr is piped to the parent process (there is
no stderr callback parameter); the promise resolves on exit code 0 and
rejects with the error message otherwise.  We return the chunks the stdout
callback receives and the promise outcome. -/
def callExec (env : ExecEnv) (cmd : String) : List String × Except String Unit :=
  ((env cmd).stdoutChunks,
    match (env cmd).execError with
    | some e => .error e
    | none => .ok ())

/-- `runScript` (lines 110–124): accumulates stdout via the third argument
of `callExec` and tries to accumulate stderr via a fourth argument — which
`callExec` does not declare, so the stderr accumulator remains the empty
string.  Returns `[stdout, stderr, err]`. -/
def runScript (env : ExecEnv) (cmd : String) : String × String × String :=
  let r := callExec env cmd
  let stdout := String.join r.1
  let stderr := ""
  let err := match r.2 with
    | .error e => e
    | .ok _ => ""
  (stdout, stderr, err)

/-- JavaScript `s.split(sep)` for a single-character separator. -/
def jsSplitAux (sep : Char) : List Char → List Char → List String
  | [], acc => [String.mk acc.reverse]
  | c :: cs, acc =>
    if c = sep then String.mk acc.reverse :: jsSplitAux sep cs []
    else jsSplitAux sep cs (c :: acc)

/-- JavaScript `s.split(sep)`. -/
def jsSplit (sep : Char) (s : String) : List String :=
  jsSplitAux sep s.toList []

/-- Digits collected so far → natural number. -/
def digitsToNat (ds : List ℕ) : ℕ := ds.foldl (fun a d => 10 * a + d) 0

/-- Take the leading decimal digits of a character list. -/
def takeDigits : List Char → List ℕ × List Char
  | [] => ([], [])
  | c :: cs =>
    if c.isDigit then
      let p := takeDigits cs
      ((c.toNat - 48) :: p.1, p.2)
    else ([], c :: cs)

/-- Exponent part of a JavaScript float literal (`e`/`E`, optional sign,
digits); an `e` not followed by a digit is ignored (exponent 0). -/
def parseExpPart : List Char → ℤ
  | [] => 0
  | c :: rest =>
    if c = 'e' ∨ c = 'E' then
      match rest with
      | '-' :: rest2 =>
        let ds := (takeDigits rest2).1
        if ds.isEmpty then 0 else -(digitsToNat ds : ℤ)
      | '+' :: rest2 =>
        let ds := (takeDigits rest2).1
        if ds.isEmpty then 0 else (digitsToNat ds : ℤ)
      | rest2 =>
        let ds := (takeDigits rest2).1
        if ds.isEmpty then 0 else (digitsToNat ds : ℤ)
    else 0

/-- Unsigned part of JavaScript `parseFloat`: `Infinity`, or digits with
optional fraction and exponent; `NaN` when no digit is found. -/
def parseFloatUnsigned (cs : List Char) : JsNum :=
  if List.isPrefixOf "Infinity".toList cs then .inf
  else
    let ip := takeDigits cs
    let fp :=
      match ip.2 with
      | '.' :: rest => takeDigits rest
      | _ => ([], ip.2)
    if ip.1.isEmpty ∧ fp.1.isEmpty then .nan
    else
      let mant : ℚ := (digitsToNat ip.1 : ℚ) + (digitsToNat fp.1 : ℚ) / ((10 : ℚ) ^ fp.1.length)
      let e : ℤ := parseExpPart fp.2
      .num (mant * (10 : ℚ) ^ e)

/-- Negation on `JsNum`. -/
def JsNum.negate : JsNum → JsNum
  | .nan => .nan
  | .inf => .negInf
  | .negInf => .inf
  | .num q => .num (-q)

/-- JavaScript `parseFloat`: skip leading whitespace, optional sign, then
the longest float prefix; `NaN` when none exists. -/
def parseFloat (s : String) : JsNum :=
  let cs := s.toList.dropWhile Char.isWhitespace
  match cs with
  | '-' :: rest => (parseFloatUnsigned rest).negate
  | '+' :: rest => parseFloatUnsigned rest
  | rest => parseFloatUnsigned rest

/-- The two similarity metrics. -/
inductive Metric
  | ssim
  | psnr
deriving DecidableEq, Repr

/-- Metric name as spliced into the command line. -/
def Metric.name : Metric → String
  | .ssim => "ssim"
  | .psnr => "psnr"

/-- `Benchmarker.calculatePerformance` (lines 362–372): run
`magick compare -metric <metric> <upscaled> <original> <diff>` through
`runScript`, destructure `[_, out,]` — the *second* element, i.e. the
stderr accumulator — take `out.split(' ')[0]`, throw `No metric found`
when it is falsy (empty), else return `parseFloat` of it.  (The
`typeof out !== 'string'` guard cannot fire: the accumulator is always a
string.) -/
def calculatePerformance (env : ExecEnv)
    (upscaledPath originalPath diffPath : String) (metric : Metric) :
    Except String JsNum :=
  let r := runScript env
    ("magick compare -metric " ++ metric.name ++ " " ++ upscaledPath ++ " " ++ originalPath ++ " " ++ diffPath)
  let out := r.2.1
  let value := (jsSplit ' ' out).headD ""
  if value = "" then .error "No metric found"
  else .ok (parseFloat value)

/-! ## The benchmark loop -/

/-- `BenchmarkResult` of a (model, dataset) pair. -/
structure BenchmarkResult where
  ssim : JsNum
  psnr : JsNum
deriving DecidableEq, Repr

/-- The per-pair mutable state of `Benchmarker.benchmark`: the two score
arrays, plus a count of metric computations performed (for the claims about
work done). -/
structure BenchState where
  ssimScores : List JsNum
  psnrScores : List JsNum
  metricCalls : ℕ
deriving DecidableEq, Repr

/-- Upscale environment: for a downscaled image path, the dimensions that
`getSize` reports for the written upscaled output. -/
def UpscaleEnv : Type := String → ℕ × ℕ

/-- The metric computation as invoked per file — in the real program this is
`calculatePerformance env`, but the benchmark loop is parametric in it (the
specification injects stub metric values in its scenarios). -/
def CalcPerf : Type := String → String → String → Metric → Except String JsNum

/-- `path.resolve(upscaledFolder, file)`. -/
def upscaledPathOf (tmpDir fileName : String) : String :=
  tmpDir ++ "/upscaled/" ++ fileName

/-- `path.resolve(diffFolder, file)`. -/
def diffPathOf (tmpDir fileName : String) : String :=
  tmpDir ++ "/diff/" ++ fileName

/-- The dimension-mismatch error message (the source serializes both
dimension records with `JSON.stringify`; we render them as `w x h`). -/
def dimMismatchMsg (ow oh : ℚ) (uw uh : ℕ) : String :=
  "Dimensions mismatch. Original image: " ++ toString ow ++ " x " ++ toString oh
    ++ ", Upscaled image: " ++ toString uw ++ " x " ++ toString uh

/-- `processFile` of `Benchmarker.benchmark` (lines 391–420): upscale the
downscaled image, write it, measure it, reject when its dimensions differ
from the recorded original dimensions, otherwise push the ssim score and
then the psnr score. -/
def benchProcessFile (ue : UpscaleEnv) (cp : CalcPerf) (tmpDir : String)
    (st : BenchState) (t : FileTriple) : Except String BenchState :=
  let upscaledPath := upscaledPathOf tmpDir t.fileName
  let dims := ue t.downscaled.path
  let diffPath := diffPathOf tmpDir t.fileName
  if t.original.width ≠ (dims.1 : ℚ) ∨ t.original.height ≠ (dims.2 : ℚ) then
    .error (dimMismatchMsg t.original.width t.original.height dims.1 dims.2)
  else
    match cp upscaledPath t.original.path diffPath .ssim with
    | .error e => .error e
    | .ok s =>
      match cp upscaledPath t.original.path diffPath .psnr with
      | .error e => .error e
      | .ok p =>
        .ok { ssimScores := st.ssimScores ++ [s]
              psnrScores := st.psnrScores ++ [p]
              metricCalls := st.metricCalls + 2 }

/-- The `asyncPool(1, files, processFile)` loop: strictly sequential; the
first rejection aborts the pair, leaving the state accumulated so far. -/
def benchRun (ue : UpscaleEnv) (cp : CalcPerf) (tmpDir : String) :
    List FileTriple → BenchState → BenchState × Option String
  | [], st => (st, none)
  | t :: ts, st =>
    match benchProcessFile ue cp tmpDir st t with
    | .ok st1 => benchRun ue cp tmpDir ts st1
    | .error e => (st, some e)

/-- One (model, dataset) pair of `Benchmarker.benchmark` (lines 384–433):
run the sequential file loop, then record `{ssim: avg(ssim), psnr:
avg(psnr)}`; a rejection propagates and no result is recorded. -/
def benchmarkPair (ue : UpscaleEnv) (cp : CalcPerf) (tmpDir : String)
    (files : List FileTriple) : Except String BenchmarkResult :=
  match benchRun ue cp tmpDir files { ssimScores := [], psnrScores := [], metricCalls := 0 } with
  | (st, none) => .ok { ssim := jsAvg st.ssimScores, psnr := jsAvg st.psnrScores }
  | (_, some e) => .error e

/-- The full pair loop of `Benchmarker.benchmark`: results are collected
into the mapping reported at the end; any pair rejection aborts the whole
run before anything is reported. -/
def benchmarkAll (ue : UpscaleEnv) (cp : CalcPerf) (tmpDir : String) :
    List (String × List FileTriple) → Except String (List (String × BenchmarkResult))
  | [] => .ok []
  | (nm, files) :: rest =>
    match benchmarkPair ue cp tmpDir files with
    | .error e => .error e
    | .ok r =>
      match benchmarkAll ue cp tmpDir rest with
      | .error e => .error e
      | .ok rs => .ok ((nm, r) :: rs)

/-! ## The `benchmarkPerformance` entry point -/

/-- The observable actions of the executor passed to the promise returned
by `benchmarkPerformance` (lines 448–455): construct a `Dataset` per
definition, construct the `Benchmarker` (which fires `benchmark()` without
awaiting it), call `cleanup()`, and return `'foo'`.  `callResolve` and
`callReject` would be the executor invoking its `resolve`/`reject`
parameters — the only way the returned promise can ever settle. -/
inductive MainAction
  | constructDataset (name : String)
  | constructBenchmarker
  | runCleanup
  | callResolve
  | callReject
deriving DecidableEq, Repr

/-- The action trace of the `benchmarkPerformance` executor. -/
def benchmarkPerformanceActions (_models : List String)
    (datasetDefinitions : List DatasetDefinition) : List MainAction :=
  (datasetDefinitions.map (fun d => MainAction.constructDataset d.name))
    ++ [MainAction.constructBenchmarker, MainAction.runCleanup]

/-! ## Shared lemmas about the association-list operations -/

theorem alookup_aset_self {α β : Type} [DecidableEq α] (l : List (α × β)) (a : α) (b : β) :
    alookup (aset l a b) a = some b := by
  induction l with
  | nil => simp [alookup, aset]
  | cons p rest ih =>
    obtain ⟨k, v⟩ := p
    by_cases h : k = a
    · subst h
      simp [alookup, aset]
    · simp [alookup, aset, h, ih]

theorem alookup_aset_other {α β : Type} [DecidableEq α] (l : List (α × β)) (a g : α) (b : β)
    (h : g ≠ a) : alookup (aset l a b) g = alookup l g := by
  induction l with
  | nil => simp [alookup, aset, Ne.symm h]
  | cons p rest ih =>
    obtain ⟨k, v⟩ := p
    by_cases hk : k = a
    · subst hk
      have : ¬ k = g := fun hh => h (hh ▸ rfl)
      simp [alookup, aset, this]
    · by_cases hg : k = g
      · subst hg
        simp [alookup, aset, hk]
      · simp [alookup, aset, hk, hg, ih]

theorem alookup_mem {α β : Type} [DecidableEq α] (l : List (α × β)) (a : α) (b : β)
    (h : alookup l a = some b) : (a, b) ∈ l := by
  induction l with
  | nil => simp [alookup] at h
  | cons p rest ih =>
    obtain ⟨k, v⟩ := p
    by_cases hk : k = a
    · subst hk
      simp [alookup] at h
      simp [h]
    · simp [alookup, hk] at h
      simp [ih h]

theorem alookup_isSome_mem_keys {α β : Type} [DecidableEq α] (l : List (α × β)) (a : α)
    (h : (alookup l a).isSome) : a ∈ l.map Prod.fst := by
  obtain ⟨b, hb⟩ := Option.isSome_iff_exists.mp h
  exact List.mem_map.mpr ⟨(a, b), alookup_mem l a b hb, rfl⟩

theorem dbGet_save_self (db : DatasetDatabase) (k : String) (s : ℕ)
    (e : ProcessedFileDefinition) : dbGet (saveDatabaseEntry db k s e) k s = some e := by
  simp [dbGet, saveDatabaseEntry, alookup_aset_self]

theorem dbGet_save_other (db : DatasetDatabase) (k g : String) (s s' : ℕ)
    (e : ProcessedFileDefinition) (h : g ≠ k) :
    dbGet (saveDatabaseEntry db k s e) g s' = dbGet db g s' := by
  simp [dbGet, saveDatabaseEntry, alookup_aset_other _ _ _ _ h]

/-! ## Lemmas about `processOriginal` and `processFile` -/

theorem processOriginal_hit (env : SizeEnv) (dsName : String) (scale : ℕ)
    (st : PrepState) (filePath fileName : String) (pf : ProcessedFileDefinition)
    (h : dbGet st.db fileName scale = some pf) :
    processOriginal env dsName scale st filePath fileName = st := by
  unfold processOriginal
  rw [h]

theorem processOriginal_db_other (env : SizeEnv) (dsName : String) (scale : ℕ)
    (st : PrepState) (filePath fileName g : String) (s' : ℕ) (h : g ≠ fileName) :
    dbGet (processOriginal env dsName scale st filePath fileName).db g s' = dbGet st.db g s' := by
  unfold processOriginal
  cases hm : dbGet st.db fileName scale with
  | some pf => rfl
  | none => simpa using dbGet_save_other _ _ _ _ _ _ h

theorem processOriginal_creates (env : SizeEnv) (dsName : String) (scale : ℕ)
    (st : PrepState) (filePath fileName : String) :
    (dbGet (processOriginal env dsName scale st filePath fileName).db fileName scale).isSome := by
  unfold processOriginal
  cases hm : dbGet st.db fileName scale with
  | some pf => simpa using congrArg Option.isSome hm
  | none => simp [dbGet_save_self]

/-- Every operation present after `processOriginal` was already recorded or
is one of the two non-crop resize operations. -/
theorem processOriginal_ops (env : SizeEnv) (dsName : String) (scale : ℕ)
    (st : PrepState) (filePath fileName : String) :
    ∀ op ∈ (processOriginal env dsName scale st filePath fileName).ops,
      op ∈ st.ops ∨ op.isCrop = false := by
  unfold processOriginal
  cases hm : dbGet st.db fileName scale with
  | some pf => intro op hop; exact Or.inl hop
  | none =>
    intro op hop
    simp at hop
    rcases hop with hop | hop | hop
    · exact Or.inl hop
    · subst hop; exact Or.inr rfl
    · subst hop; exact Or.inr rfl

/-! ## C5: missing dataset path -/

/-- C5.  A `Dataset` constructed without a source path (absent or empty)
makes `initialize(scale, cropSize?)` fail with the configuration error
naming the missing path.  The conclusion holds for every filesystem and
size environment, so no directory walking and no image derivation can have
been performed — the guard precedes all work. -/
theorem c5_missing_path_config_error (fsEnv : String → List String) (env : SizeEnv)
    (defn : DatasetDefinition) (db : DatasetDatabase) (scale : ℕ) (cropped : Option ℕ)
    (h : defn.path = none ∨ defn.path = some "") :
    initDataset fsEnv env defn db scale cropped = .error (missingPathMessage defn.name) := by
  rcases h with h | h <;> simp [initDataset, h]

/-- C5 witness: a dataset referenced only by name. -/
theorem c5_missing_path_witness :
    (DatasetDefinition.mk "div2k" none).path = none ∧
      initDataset (fun _ => []) (fun _ => (0, 0)) (DatasetDefinition.mk "div2k" none) [] 2 none
        = .error (missingPathMessage "div2k") :=
  ⟨rfl, c5_missing_path_config_error _ _ _ _ _ _ (Or.inl rfl)⟩

/-! ## Lemmas about the fallible pipeline -/

theorem rat_den_one_cast_num (q : ℚ) (h : q.den = 1) : (q.num : ℚ) = q :=
  (Rat.den_eq_one_iff q).mp h

theorem rat_floor_cast_of_den_one (q : ℚ) (h : q.den = 1) : ((Int.floor q : ℤ) : ℚ) = q := by
  rw [← rat_den_one_cast_num q h, Int.floor_intCast]

theorem validResizeDims_natCast (m n : ℕ) (hm : 0 < m) (hn : 0 < n) :
    validResizeDims (m : ℚ) (n : ℚ) := by
  refine ⟨Rat.den_natCast m, by exact_mod_cast hm, Rat.den_natCast n, by exact_mod_cast hn⟩

theorem dbGet_save_other_scale (db : DatasetDatabase) (k : String) (sc s' : ℕ)
    (e : ProcessedFileDefinition) (h : s' ≠ sc) :
    dbGet (saveDatabaseEntry db k sc e) k s' = dbGet db k s' := by
  unfold dbGet saveDatabaseEntry
  rw [alookup_aset_self]
  show alookup (aset ((alookup db k).getD []) sc e) s' = _
  rw [alookup_aset_other _ _ _ _ h]
  cases alookup db k with
  | none => simp [alookup]
  | some m => simp

theorem cacheInv_nil : CacheInv [] := by
  intro fn s pf h
  simp [dbGet, alookup] at h

theorem processOriginalE_cacheInv (env : SizeEnv) (dsName : String) (scale : ℕ)
    (st : PrepState) (filePath fileName : String) (hinv : CacheInv st.db) :
    CacheInv (processOriginalE env dsName scale st filePath fileName).1.db := by
  unfold processOriginalE
  cases hm : dbGet st.db fileName scale with
  | some pf => exact hinv
  | none =>
    dsimp only
    split_ifs with h1 h2
    · intro fn s pf hget
      by_cases hfn : fn = fileName
      · subst hfn
        by_cases hs : s = scale
        · subst hs
          rw [dbGet_save_self] at hget
          injection hget with hpe
          subst hpe
          constructor
          · rw [rat_floor_cast_of_den_one _ h2.1]
          · rw [rat_floor_cast_of_den_one _ h2.2.2.1]
        · rw [dbGet_save_other_scale _ _ _ _ _ hs] at hget
          exact hinv _ _ _ hget
      · rw [dbGet_save_other _ _ _ _ _ _ hfn] at hget
        exact hinv _ _ _ hget
    · exact hinv
    · exact hinv

theorem processFileE_cacheInv (env : SizeEnv) (dsName : String) (scale : ℕ)
    (cropped : Option ℕ) (st : PrepState) (f : String × String) (hinv : CacheInv st.db) :
    CacheInv (processFileE env dsName scale cropped st f).1.db := by
  have hpo := processOriginalE_cacheInv env dsName scale st f.2 f.1 hinv
  unfold processFileE
  split_ifs with hhit
  · exact hinv
  · dsimp only
    cases ho : (processOriginalE env dsName scale st f.2 f.1).2 with
    | some e => exact hpo
    | none =>
      cases hpf : dbGet (processOriginalE env dsName scale st f.2 f.1).1.db f.1 scale with
      | none => exact hpo
      | some pf =>
        cases cropped with
        | none => exact hpo
        | some c =>
          dsimp only
          split_ifs with hg hex hres
          · intro fn s pf' hget
            by_cases hfn : fn = f.1
            · subst hfn
              by_cases hs : s = scale
              · subst hs
                rw [dbGet_save_self] at hget
                injection hget with hpe
                subst hpe
                exact hpo f.1 s pf hpf
              · rw [dbGet_save_other_scale _ _ _ _ _ hs] at hget
                exact hpo _ _ _ hget
            · rw [dbGet_save_other _ _ _ _ _ _ hfn] at hget
              exact hpo _ _ _ hget
          · exact hpo
          · exact hpo
          · exact hpo

theorem prepareE_cacheInv (env : SizeEnv) (dsName : String) (scale : ℕ)
    (cropped : Option ℕ) :
    ∀ (files : List (String × String)) (st : PrepState), CacheInv st.db →
      CacheInv (prepareE env dsName scale cropped files st).1.db := by
  intro files
  induction files with
  | nil => intro st h; exact h
  | cons f fs ih =>
    intro st h
    have hstep := processFileE_cacheInv env dsName scale cropped st f h
    show CacheInv (match processFileE env dsName scale cropped st f with
      | (st1, none) => prepareE env dsName scale cropped fs st1
      | (st1, some e) => (st1, some e)).1.db
    cases hres : processFileE env dsName scale cropped st f with
    | mk st1 o =>
      rw [hres] at hstep
      cases o with
      | none => exact ih st1 hstep
      | some e => exact hstep

theorem initDatasetE_cacheInv (fsEnv : String → List String) (env : SizeEnv)
    (defn : DatasetDefinition) (db : DatasetDatabase) (scale : ℕ) (cropped : Option ℕ)
    (hinv : CacheInv db) :
    CacheInv (initDatasetE fsEnv env defn db scale cropped).1.db := by
  unfold initDatasetE
  cases hp : defn.path with
  | none => exact hinv
  | some p =>
    by_cases hpe : p = ""
    · simp [hpe]
      exact hinv
    · simp [hpe]
      exact prepareE_cacheInv env defn.name scale cropped _ _ hinv

/-! ## C1: every cached entry downscales exactly -/

/-- C1.  For every file cached by `Dataset.initialize` (at any scale, in
particular 2, 3 and 4), the recorded downscaled dimensions times the scale
equal the recorded original dimensions.  An entry is only ever recorded
when `sharp`'s validation of the downscale resize at the raw
`width / scale`, `height / scale` passes, which forces those quotients to
be integers — so for them `(w/S)·S = w = ⌊w/S⌋·S` exactly.  A source whose
raw width or height is *not* a multiple of the scale makes that resize
reject before `saveDatabase` (see the C8 counterexample), so it
contributes no cached file and the invariant holds for every cached file,
such sources included.  The hypothesis says the pre-existing cache already
satisfies the invariant: it holds of the empty cache (`cacheInv_nil`) and
is preserved by every run, hence holds of every cache this program
writes. -/
theorem c1_cached_downscale_exact (fsEnv : String → List String) (env : SizeEnv)
    (defn : DatasetDefinition) (db : DatasetDatabase) (scale : ℕ) (cropped : Option ℕ)
    (hinv : CacheInv db) :
    ∀ fn s pf,
      dbGet (initDatasetE fsEnv env defn db scale cropped).1.db fn s = some pf →
      pf.downscaled.width * (s : ℚ) = pf.original.width ∧
      pf.downscaled.height * (s : ℚ) = pf.original.height :=
  initDatasetE_cacheInv fsEnv env defn db scale cropped hinv

/-- C1 witness: a run over a 6×4 source at scale 2, starting from the empty
cache. -/
theorem c1_cached_downscale_exact_witness :
    CacheInv [] ∧
    (∀ fn s pf,
      dbGet (initDatasetE (fun _ => ["a.png"]) (fun _ => (6, 4))
          { name := "ds", path := some "srcdir" } [] 2 none).1.db fn s = some pf →
      pf.downscaled.width * (s : ℚ) = pf.original.width ∧
      pf.downscaled.height * (s : ℚ) = pf.original.height) :=
  ⟨cacheInv_nil,
    c1_cached_downscale_exact (fun _ => ["a.png"]) (fun _ => (6, 4))
      { name := "ds", path := some "srcdir" } [] 2 none cacheInv_nil⟩

/-! ## C8: derived original dimensions -/

/-- A rational of the form `5/2` is not an integer. -/
theorem five_half_den_ne_one : ((5 : ℚ) / 2).den ≠ 1 := by
  intro h
  have h2 := rat_den_one_cast_num _ h
  have h3 : (((5 : ℚ) / 2).num : ℚ) * 2 = 5 := by
    rw [h2]
    norm_num
  have h4 : ((5 : ℚ) / 2).num * 2 = 5 := by exact_mod_cast h3
  omega

/-- C8 counterexample.  The claim asserts recorded floored original
dimensions for *every* source (W, H); but for the 5×4 source at scale 2 the
downscale resize is requested at the fractional width `5/2`, `sharp`
rejects it, and the rejection precedes `saveDatabase`: the run fails with
the resize error and no entry is recorded for the file. -/
theorem c8_nonmultiple_source_records_nothing :
    (processOriginalE (fun _ => (5, 4)) "ds" 2 { db := [], ops := [] } "img.png" "img.png").2
      = some sharpResizeMsg ∧
    dbGet (processOriginalE (fun _ => (5, 4)) "ds" 2 { db := [], ops := [] }
        "img.png" "img.png").1.db "img.png" 2 = none := by
  have hv1 : validResizeDims ((Int.floor ((5 : ℚ) / (2 : ℚ)) : ℤ) * (2 : ℚ))
      ((Int.floor ((4 : ℚ) / (2 : ℚ)) : ℤ) * (2 : ℚ)) := by
    rw [show ((Int.floor ((5 : ℚ) / (2 : ℚ)) : ℤ) : ℚ) * (2 : ℚ) = ((4 : ℕ) : ℚ) from by norm_num,
        show ((Int.floor ((4 : ℚ) / (2 : ℚ)) : ℤ) : ℚ) * (2 : ℚ) = ((4 : ℕ) : ℚ) from by norm_num]
    exact validResizeDims_natCast 4 4 (by decide) (by decide)
  have hv2 : ¬ validResizeDims ((5 : ℚ) / (2 : ℚ)) ((4 : ℚ) / (2 : ℚ)) :=
    fun hv => five_half_den_ne_one hv.1
  have heq : processOriginalE (fun _ => (5, 4)) "ds" 2 { db := [], ops := [] } "img.png" "img.png"
      = ({ db := [], ops := [ImgOp.resizeOriginal "img.png" 2] }, some sharpResizeMsg) := by
    unfold processOriginalE
    simp [dbGet, alookup, hv1, hv2]
  rw [heq]
  exact ⟨rfl, rfl⟩

/-- C8 as amended.  For a fresh source of raw dimensions (W, H), positive
and divisible by the scale — the only sources whose derivation completes;
otherwise the downscale resize rejects before `saveDatabase` and records
nothing (see the counterexample) — `processOriginal` succeeds and the
recorded `original` dimensions equal `(floor(W/S)*S, floor(H/S)*S)` (stated
with natural division, which is exactly `floor` of the rational division).
The dimensions are a function of (W, H, S) alone — the conclusion fixes
them for any state, any dataset name and any path — so re-deriving from
the same source yields the same dimensions. -/
theorem c8_original_dims_floor_when_divisible (env : SizeEnv) (dsName : String)
    (scale : ℕ) (st : PrepState) (filePath fileName : String) (W H : ℕ)
    (hscale : 0 < scale) (hsize : env filePath = (W, H))
    (hfresh : dbGet st.db fileName scale = none)
    (hW : 0 < W) (hH : 0 < H) (hWdvd : scale ∣ W) (hHdvd : scale ∣ H) :
    (processOriginalE env dsName scale st filePath fileName).2 = none ∧
    ∃ pf, dbGet (processOriginalE env dsName scale st filePath fileName).1.db
        fileName scale = some pf
      ∧ pf.original.width = ((W / scale) * scale : ℕ)
      ∧ pf.original.height = ((H / scale) * scale : ℕ) := by
  have hsne : ((scale : ℚ)) ≠ 0 := by positivity
  have hdw : ((W : ℚ) / (scale : ℚ)) = ((W / scale : ℕ) : ℚ) := (Nat.cast_div hWdvd hsne).symm
  have hdh : ((H : ℚ) / (scale : ℚ)) = ((H / scale : ℕ) : ℚ) := (Nat.cast_div hHdvd hsne).symm
  have hWq : 0 < W / scale := Nat.div_pos (Nat.le_of_dvd hW hWdvd) hscale
  have hHq : 0 < H / scale := Nat.div_pos (Nat.le_of_dvd hH hHdvd) hscale
  have hfW : ((Int.floor ((W : ℚ) / (scale : ℚ)) : ℤ) : ℚ) * (scale : ℚ)
      = ((W / scale * scale : ℕ) : ℚ) := by
    rw [hdw, Int.floor_natCast]
    norm_cast
  have hfH : ((Int.floor ((H : ℚ) / (scale : ℚ)) : ℤ) : ℚ) * (scale : ℚ)
      = ((H / scale * scale : ℕ) : ℚ) := by
    rw [hdh, Int.floor_natCast]
    norm_cast
  have hv1 : validResizeDims ((Int.floor ((W : ℚ) / (scale : ℚ)) : ℤ) * (scale : ℚ))
      ((Int.floor ((H : ℚ) / (scale : ℚ)) : ℤ) * (scale : ℚ)) := by
    rw [hfW, hfH]
    exact validResizeDims_natCast _ _ (Nat.mul_pos hWq hscale) (Nat.mul_pos hHq hscale)
  have hv2 : validResizeDims ((W : ℚ) / (scale : ℚ)) ((H : ℚ) / (scale : ℚ)) := by
    rw [hdw, hdh]
    exact validResizeDims_natCast _ _ hWq hHq
  unfold processOriginalE
  rw [hfresh, hsize]
  dsimp only
  rw [if_pos hv1, if_pos hv2]
  refine ⟨rfl, _, dbGet_save_self _ _ _ _, hfW, hfH⟩

/-- C8 witness: a 6×4 source at scale 2 succeeds and records the 6×4
original (floor(6/2)*2 = 6, floor(4/2)*2 = 4). -/
theorem c8_original_dims_divisible_witness :
    0 < 2 ∧ (fun (_ : String) => ((6 : ℕ), (4 : ℕ))) "img.png" = (6, 4) ∧
    dbGet (PrepState.mk [] []).db "img.png" 2 = none ∧
    ((0 : ℕ) < 6 ∧ (0 : ℕ) < 4 ∧ 2 ∣ 6 ∧ 2 ∣ 4) ∧
    ((processOriginalE (fun _ => (6, 4)) "ds" 2 (PrepState.mk [] []) "img.png" "img.png").2
        = none ∧
      ∃ pf, dbGet (processOriginalE (fun _ => (6, 4)) "ds" 2 (PrepState.mk [] [])
          "img.png" "img.png").1.db "img.png" 2 = some pf
        ∧ pf.original.width = ((6 / 2) * 2 : ℕ)
        ∧ pf.original.height = ((4 / 2) * 2 : ℕ)) :=
  ⟨by decide, rfl, rfl, ⟨by decide, by decide, by decide, by decide⟩,
    c8_original_dims_floor_when_divisible (fun _ => (6, 4)) "ds" 2 (PrepState.mk [] [])
      "img.png" "img.png" 6 4 (by decide) rfl rfl (by decide) (by decide)
      (by decide) (by decide)⟩

/-! ## C2: the metric computation -/

/-- C2 (the code cannot extract any score).  `calculatePerformance`
destructures `[_, out,]` from `runScript`, i.e. the stderr accumulator —
not stdout — and `callExec` has no stderr-callback parameter, so that
accumulator is always the empty string: whatever the comparison tool
prints, the leading token is empty and the method rejects with
`No metric found`.  Evaluated here at a run where the tool prints the
parseable score `0.85 (6131)` on both streams and exits successfully. -/
theorem c2_metric_always_fails :
    calculatePerformance
        (fun _ => ExecResult.mk ["0.85 (6131)"] ["0.85 (6131)"] none)
        "up.png" "orig.png" "diff.png" Metric.ssim
      = .error "No metric found" ∧
    (∀ (env : ExecEnv) (u o d : String) (m : Metric),
      calculatePerformance env u o d m = .error "No metric found") :=
  ⟨rfl, fun _ _ _ _ _ => rfl⟩

/-! ## C9: the promise returned by `benchmarkPerformance` -/

/-- C9.  The executor of the promise returned by `benchmarkPerformance`
constructs the datasets and the `Benchmarker`, runs `cleanup()`, and
returns — it never invokes `resolve` or `reject` on any path (the `return
'foo'` of an executor settles nothing), so the returned promise never
settles and a caller awaiting it blocks forever. -/
theorem c9_promise_never_settles (models : List String)
    (datasetDefinitions : List DatasetDefinition) :
    MainAction.callResolve ∉ benchmarkPerformanceActions models datasetDefinitions ∧
    MainAction.callReject ∉ benchmarkPerformanceActions models datasetDefinitions := by
  constructor <;>
    · intro h
      simp [benchmarkPerformanceActions] at h

/-! ## Lemmas about `exceptMapM` and `getFileEntry` -/

theorem exceptMapM_ok_forall₂ {ε α β : Type} (f : α → Except ε β) (l : List α)
    (out : List β) (h : exceptMapM f l = .ok out) :
    List.Forall₂ (fun a b => f a = .ok b) l out := by
  induction l generalizing out with
  | nil =>
    simp [exceptMapM] at h
    subst h
    exact .nil
  | cons a as ih =>
    cases hf : f a with
    | error e => simp [exceptMapM, hf] at h
    | ok b =>
      cases hrest : exceptMapM f as with
      | error e => simp [exceptMapM, hf, hrest] at h
      | ok bs =>
        simp [exceptMapM, hf, hrest] at h
        subst h
        exact .cons hf (ih _ hrest)

theorem exceptMapM_ok_of_forall {ε α β : Type} (f : α → Except ε β) (l : List α)
    (h : ∀ a ∈ l, ∃ b, f a = .ok b) : (exceptMapM f l).isOk = true := by
  induction l with
  | nil => rfl
  | cons a as ih =>
    obtain ⟨b, hb⟩ := h a (List.mem_cons_self a as)
    have hrest := ih (fun x hx => h x (List.mem_cons_of_mem a hx))
    cases hr : exceptMapM f as with
    | error e =>
      rw [hr] at hrest
      simp [Except.isOk, Except.toBool] at hrest
    | ok bs =>
      have hall : exceptMapM f (a :: as) = .ok (b :: bs) := by
        unfold exceptMapM
        rw [hb, hr]
      rw [hall]
      rfl

theorem forall₂_mem_left {α β : Type} {r : α → β → Prop} {l : List α} {out : List β}
    (h : List.Forall₂ r l out) (a : α) (ha : a ∈ l) : ∃ b, b ∈ out ∧ r a b := by
  induction h with
  | nil => simp at ha
  | cons hr _ ih =>
    rcases List.mem_cons.mp ha with h1 | h1
    · subst h1
      exact ⟨_, List.mem_cons_self _ _, hr⟩
    · obtain ⟨b, hb, hrb⟩ := ih h1
      exact ⟨b, List.mem_cons_of_mem _ hb, hrb⟩

theorem forall₂_map_eq {α β : Type} {g : β → α} {l : List α} {out : List β}
    (h : List.Forall₂ (fun a b => g b = a) l out) : out.map g = l := by
  induction h with
  | nil => rfl
  | cons hr _ ih => simp [hr, ih]

/-- Well-formedness of a cached database: every stored entry's `fileName`
field is the key it is stored under (every entry written by
`Dataset.initialize` has this shape). -/
def WellFormedDB (db : DatasetDatabase) : Prop :=
  ∀ e ∈ db, ∀ se ∈ e.2, (se.2).fileName = e.1

instance : DecidablePred WellFormedDB := fun db => by
  unfold WellFormedDB
  infer_instance

theorem wf_dbGet (db : DatasetDatabase) (h : WellFormedDB db) (fn : String) (s : ℕ)
    (pf : ProcessedFileDefinition) (hg : dbGet db fn s = some pf) : pf.fileName = fn := by
  unfold dbGet at hg
  cases hm : alookup db fn with
  | none => rw [hm] at hg; simp at hg
  | some m =>
    rw [hm] at hg
    simp at hg
    exact h (fn, m) (alookup_mem _ _ _ hm) (s, pf) (alookup_mem _ _ _ hg)

theorem getFileEntry_ok_fileName (db : DatasetDatabase) (scale : ℕ) (cropped : Option ℕ)
    (fn : String) (t : FileTriple) (hwf : WellFormedDB db)
    (h : getFileEntry db scale cropped fn = .ok t) : t.fileName = fn := by
  unfold getFileEntry at h
  cases hm : dbGet db fn scale with
  | none => rw [hm] at h; simp at h
  | some file =>
    rw [hm] at h
    have hfn : file.fileName = fn := wf_dbGet db hwf fn scale file hm
    cases cropped with
    | none =>
      simp at h
      subst h
      simpa using hfn
    | some c =>
      by_cases hc : c = 0
      · subst hc
        simp at h
        subst h
        simpa using hfn
      · cases hcrop : alookup file.cropped c with
        | none => simp [hc, hcrop] at h
        | some cp =>
          simp [hc, hcrop] at h
          subst h
          simpa using hfn

/-! ## C4: `getFiles` ordering and missing-crop failure -/

/-- C4 counterexample data: one cached file with a crop entry for size 32
only. -/
def c4pkg : ImagePackage := { path := "o.png", width := 4, height := 4 }

/-- C4 counterexample data: the cropped pair stored under crop size 32. -/
def c4cropPair : CroppedPair :=
  { original := c4pkg, downscaled := { path := "co.png", width := 2, height := 2 } }

/-- C4 counterexample data: the cached entry for `a.png` at scale 2. -/
def c4pf : ProcessedFileDefinition :=
  { original := c4pkg
    downscaled := { path := "d.png", width := 2, height := 2 }
    cropped := [(32, c4cropPair)]
    fileName := "a.png" }

/-- C4 counterexample data: the database holding only `a.png`. -/
def c4db : DatasetDatabase := [("a.png", [(2, c4pf)])]

/-- C4 counterexample.  The claim states `getFiles` fails whenever a
cropSize is requested for which some file has no cropped entry, even if
other crop sizes exist.  Requesting cropSize `0` against a database whose
only file has a crop entry for 32 and none for 0 does not fail: `0` is
falsy in JavaScript, so `if (cropped)` treats it as "no crop" and the
uncropped triples are returned. -/
theorem c4_crop_zero_counterexample :
    alookup c4pf.cropped 0 = none ∧
    (alookup c4pf.cropped 32).isSome = true ∧
    getFilesSorted c4db 2 (some 0)
      = .ok [{ original := c4pf.original, downscaled := c4pf.downscaled, fileName := "a.png" }] :=
  ⟨rfl, rfl, rfl⟩

/-- C4 as amended.  For a well-formed database: (1) whenever `getFiles`
succeeds, the returned triples are sorted by `fileName` ascending; (2) for
every *nonzero* requested cropSize, if some file's scale entry lacks a
cropped entry for that exact size (even if other crop sizes exist for it),
`getFiles(scale, cropSize)` fails. -/
theorem c4_getFiles_sorted_and_missing_crop_fails (db : DatasetDatabase) (scale : ℕ)
    (hwf : WellFormedDB db) :
    (∀ (cropped : Option ℕ) (l : List FileTriple),
      getFilesSorted db scale cropped = .ok l →
      List.Sorted (· ≤ ·) (l.map FileTriple.fileName)) ∧
    (∀ (c : ℕ) (fn : String) (pf : ProcessedFileDefinition),
      c ≠ 0 → dbGet db fn scale = some pf → alookup pf.cropped c = none →
      (getFilesSorted db scale (some c)).isOk = false) := by
  constructor
  · intro cropped l h
    unfold getFilesSorted at h
    have h2 := exceptMapM_ok_forall₂ _ _ _ h
    have h3 : List.Forall₂ (fun a b => FileTriple.fileName b = a)
        ((db.map Prod.fst).insertionSort (· ≤ ·)) l :=
      h2.imp (fun {a} {b} hab => getFileEntry_ok_fileName db scale cropped a b hwf hab)
    rw [forall₂_map_eq h3]
    exact List.sorted_insertionSort (· ≤ ·) (db.map Prod.fst)
  · intro c fn pf hc hget hcrop
    cases hres : getFilesSorted db scale (some c) with
    | error e => rfl
    | ok l =>
      exfalso
      unfold getFilesSorted at hres
      have h2 := exceptMapM_ok_forall₂ _ _ _ hres
      have hmem : fn ∈ db.map Prod.fst := by
        apply alookup_isSome_mem_keys
        unfold dbGet at hget
        cases hm : alookup db fn with
        | none => rw [hm] at hget; simp at hget
        | some m => simp
      have hmem2 : fn ∈ (db.map Prod.fst).insertionSort (· ≤ ·) :=
        (List.perm_insertionSort (· ≤ ·) (db.map Prod.fst)).mem_iff.mpr hmem
      obtain ⟨t, _, hok⟩ := forall₂_mem_left h2 fn hmem2
      unfold getFileEntry at hok
      rw [hget] at hok
      simp [hc, hcrop] at hok

/-- C4 witness data: entry for `a.png` with no crop entries. -/
def c4wpfA : ProcessedFileDefinition :=
  { original := { path := "oa.png", width := 4, height := 4 }
    downscaled := { path := "da.png", width := 2, height := 2 }
    cropped := []
    fileName := "a.png" }

/-- C4 witness data: entry for `b.png` with no crop entries. -/
def c4wpfB : ProcessedFileDefinition :=
  { original := { path := "ob.png", width := 6, height := 6 }
    downscaled := { path := "db.png", width := 3, height := 3 }
    cropped := []
    fileName := "b.png" }

/-- C4 witness data: the database, with keys deliberately out of order. -/
def c4wdb : DatasetDatabase := [("b.png", [(2, c4wpfB)]), ("a.png", [(2, c4wpfA)])]

/-- C4 witness: on a concrete two-file database stored out of order, the
success branch returns the triples sorted by fileName, and requesting the
(nonzero) cropSize 5 — for which no cropped entry exists — fails. -/
theorem c4_getFiles_witness :
    WellFormedDB c4wdb ∧
    List.Sorted (· ≤ ·)
      (([(⟨c4wpfA.original, c4wpfA.downscaled, "a.png"⟩ : FileTriple),
         ⟨c4wpfB.original, c4wpfB.downscaled, "b.png"⟩]).map FileTriple.fileName) ∧
    (getFilesSorted c4wdb 2 (some 5)).isOk = false := by
  refine ⟨by decide, ?_, ?_⟩
  · refine (c4_getFiles_sorted_and_missing_crop_fails c4wdb 2 (by decide)).1 none
      [⟨c4wpfA.original, c4wpfA.downscaled, "a.png"⟩,
       ⟨c4wpfB.original, c4wpfB.downscaled, "b.png"⟩] ?_
    have hle : ¬ ("b.png" : String) ≤ "a.png" := by
      simp only [String.le_iff_toList_le]
      decide
    simp [getFilesSorted, c4wdb, List.insertionSort, List.orderedInsert, hle,
      exceptMapM, getFileEntry, dbGet, alookup, c4wpfA, c4wpfB]
  · exact (c4_getFiles_sorted_and_missing_crop_fails c4wdb 2 (by decide)).2 5 "a.png" c4wpfA
      (by decide) rfl rfl

/-! ## The cache invariant and the idempotence of preparation -/

/-- The cache invariant for one file name: the scale entry exists and, when
a truthy (nonzero) crop size was requested, its crop entry exists as well.
This is exactly the condition making `processFile` a no-op. -/
def PrepInv (db : DatasetDatabase) (scale : ℕ) (cropped : Option ℕ) (fn : String) : Prop :=
  ∃ pf, dbGet db fn scale = some pf ∧
    (∀ c, cropped = some c → c ≠ 0 → (alookup pf.cropped c).isSome = true)

theorem processFile_noop (env : SizeEnv) (dsName : String) (scale : ℕ)
    (cropped : Option ℕ) (st : PrepState) (f : String × String)
    (h : PrepInv st.db scale cropped f.1) :
    processFile env dsName scale cropped st f = st := by
  obtain ⟨pf, hpf, hcrop⟩ := h
  cases cropped with
  | none =>
    have hph : prepHit st.db scale none f.1 = true := by simp [prepHit, hpf]
    unfold processFile
    simp only [hph, if_true]
  | some c =>
    by_cases hc : c = 0
    · subst hc
      cases hz : (alookup pf.cropped 0).isSome with
      | true =>
        have hph : prepHit st.db scale (some 0) f.1 = true := by simp [prepHit, hpf, hz]
        unfold processFile
        simp only [hph, if_true]
      | false =>
        have hph : prepHit st.db scale (some 0) f.1 = false := by simp [prepHit, hpf, hz]
        unfold processFile
        simp only [hph, Bool.false_eq_true, if_false]
        rw [processOriginal_hit env dsName scale st f.2 f.1 pf hpf, hpf]
        simp
    · have hz : (alookup pf.cropped c).isSome = true := hcrop c rfl hc
      have hph : prepHit st.db scale (some c) f.1 = true := by simp [prepHit, hpf, hz]
      unfold processFile
      simp only [hph, if_true]

theorem processFile_establishes (env : SizeEnv) (dsName : String) (scale : ℕ)
    (cropped : Option ℕ) (st : PrepState) (f : String × String) :
    PrepInv (processFile env dsName scale cropped st f).db scale cropped f.1 := by
  cases hhit : prepHit st.db scale cropped f.1 with
  | true =>
    have hres : processFile env dsName scale cropped st f = st := by
      unfold processFile
      simp only [hhit, if_true]
    rw [hres]
    unfold prepHit at hhit
    cases hpf : dbGet st.db f.1 scale with
    | none => rw [hpf] at hhit; simp at hhit
    | some pf =>
      rw [hpf] at hhit
      refine ⟨pf, hpf, ?_⟩
      intro c hcem hc0
      subst hcem
      simpa using hhit
  | false =>
    have hsome := processOriginal_creates env dsName scale st f.2 f.1
    obtain ⟨pf, hpf⟩ := Option.isSome_iff_exists.mp hsome
    unfold processFile
    simp only [hhit, Bool.false_eq_true, if_false]
    rw [hpf]
    cases cropped with
    | none => exact ⟨pf, hpf, by intro c hc; cases hc⟩
    | some c =>
      by_cases hc : c = 0
      · subst hc
        simp only [ne_eq, not_true_eq_false, false_and, if_false]
        exact ⟨pf, hpf, by intro c' hc' h0; cases hc'; simp at h0⟩
      · cases hcr : alookup pf.cropped c with
        | some cp =>
          simp only [ne_eq, hc, not_false_eq_true, hcr, true_and, if_false]
          refine ⟨pf, hpf, ?_⟩
          intro c' hc' _
          cases hc'
          simp [hcr]
        | none =>
          simp only [ne_eq, hc, not_false_eq_true, hcr, and_true, true_and, if_true]
          refine ⟨_, dbGet_save_self _ _ _ _, ?_⟩
          intro c' hc' _
          cases hc'
          simp [alookup_aset_self]

theorem processFile_db_other (env : SizeEnv) (dsName : String) (scale : ℕ)
    (cropped : Option ℕ) (st : PrepState) (f : String × String) (g : String) (s' : ℕ)
    (h : g ≠ f.1) :
    dbGet (processFile env dsName scale cropped st f).db g s' = dbGet st.db g s' := by
  cases hhit : prepHit st.db scale cropped f.1 with
  | true =>
    unfold processFile
    simp only [hhit, if_true]
  | false =>
    unfold processFile
    simp only [hhit, Bool.false_eq_true, if_false]
    have hother := processOriginal_db_other env dsName scale st f.2 f.1 g s' h
    split
    · exact hother
    · split
      · exact hother
      · split
        · simp only
          rw [dbGet_save_other _ _ _ _ _ _ h]
          exact hother
        · exact hother

theorem processFile_preserves (env : SizeEnv) (dsName : String) (scale : ℕ)
    (cropped : Option ℕ) (st : PrepState) (f : String × String) (g : String)
    (h : PrepInv st.db scale cropped g) :
    PrepInv (processFile env dsName scale cropped st f).db scale cropped g := by
  by_cases hg : g = f.1
  · subst hg
    exact processFile_establishes env dsName scale cropped st f
  · obtain ⟨pf, hpf, hcrop⟩ := h
    exact ⟨pf, by rw [processFile_db_other env dsName scale cropped st f g scale hg]; exact hpf, hcrop⟩

theorem prepare_preserves (env : SizeEnv) (dsName : String) (scale : ℕ)
    (cropped : Option ℕ) :
    ∀ (files : List (String × String)) (st : PrepState) (g : String),
      PrepInv st.db scale cropped g →
      PrepInv (prepare env dsName scale cropped files st).db scale cropped g := by
  intro files
  induction files with
  | nil => intro st g h; exact h
  | cons f fs ih =>
    intro st g h
    exact ih _ g (processFile_preserves env dsName scale cropped st f g h)

theorem prepare_establishes (env : SizeEnv) (dsName : String) (scale : ℕ)
    (cropped : Option ℕ) :
    ∀ (files : List (String × String)) (st : PrepState),
      ∀ f ∈ files, PrepInv (prepare env dsName scale cropped files st).db scale cropped f.1 := by
  intro files
  induction files with
  | nil => intro st f hf; simp at hf
  | cons f0 fs ih =>
    intro st f hf
    rcases List.mem_cons.mp hf with rfl | hmem
    · exact prepare_preserves env dsName scale cropped fs _ f.1
        (processFile_establishes env dsName scale cropped st f)
    · exact ih _ f hmem

theorem prepare_noop (env : SizeEnv) (dsName : String) (scale : ℕ)
    (cropped : Option ℕ) :
    ∀ (files : List (String × String)) (st : PrepState),
      (∀ f ∈ files, PrepInv st.db scale cropped f.1) →
      prepare env dsName scale cropped files st = st := by
  intro files
  induction files with
  | nil => intro st _; rfl
  | cons f0 fs ih =>
    intro st h
    have h0 : processFile env dsName scale cropped st f0 = st :=
      processFile_noop env dsName scale cropped st f0 (h f0 (List.mem_cons_self _ _))
    show prepare env dsName scale cropped fs (processFile env dsName scale cropped st f0) = st
    rw [h0]
    exact ih st (fun f hf => h f (List.mem_cons_of_mem _ hf))

/-! ## C3: idempotence of `initialize` -/

/-- C3.  If `initialize(scale, cropSize)` completed, producing the cached
state `st1`, then running `initialize` a second time with the identical
arguments succeeds with the identical database — the cached metadata is
value-identical, hence byte-identical under the deterministic
`JSON.stringify` — and an empty image-operation list: every
`(file, scale[, crop])` is already cached, so the second run performs no
image derivation work at all. -/
theorem c3_second_run_does_no_work (fsEnv : String → List String) (env : SizeEnv)
    (defn : DatasetDefinition) (db : DatasetDatabase) (scale : ℕ) (cropped : Option ℕ)
    (st1 : PrepState)
    (h : initDataset fsEnv env defn db scale cropped = .ok st1) :
    initDataset fsEnv env defn st1.db scale cropped = .ok { db := st1.db, ops := [] } := by
  unfold initDataset at h ⊢
  cases hp : defn.path with
  | none => rw [hp] at h; simp at h
  | some p =>
    rw [hp] at h
    by_cases hpe : p = ""
    · subst hpe
      simp at h
    · simp [hpe] at h ⊢
      have hInv : ∀ f ∈ (fsEnv p).map (fun file => (file, p ++ "/" ++ file)),
          PrepInv st1.db scale cropped f.1 := by
        intro f hf
        rw [← h]
        exact prepare_establishes env defn.name scale cropped _ _ f hf
      exact prepare_noop env defn.name scale cropped _ _ hInv

/-- C3 witness data: the state after the first run over one 4×4 source
image. -/
def c3wst1 : PrepState :=
  prepare (fun _ => (4, 4)) "ds" 2 none [("a.png", "srcdir/a.png")]
    { db := [], ops := [] }

/-- C3 witness: a concrete dataset of one file, processed at scale 2; the
second `initialize` run returns the same database with zero image
operations. -/
theorem c3_second_run_witness :
    initDataset (fun _ => ["a.png"]) (fun _ => (4, 4))
        { name := "ds", path := some "srcdir" } [] 2 none = .ok c3wst1 ∧
    initDataset (fun _ => ["a.png"]) (fun _ => (4, 4))
        { name := "ds", path := some "srcdir" } c3wst1.db 2 none
      = .ok { db := c3wst1.db, ops := [] } :=
  ⟨rfl, c3_second_run_does_no_work _ _ _ _ _ _ _ rfl⟩

/-! ## C10: crop size 0 is treated as no crop -/

theorem getFileEntry_some_of (db : DatasetDatabase) (scale : ℕ) (fn : String)
    (file : ProcessedFileDefinition) (hfile : dbGet db fn scale = some file) :
    getFileEntry db scale none fn
      = .ok { original := file.original, downscaled := file.downscaled, fileName := file.fileName } := by
  unfold getFileEntry
  rw [hfile]

theorem processFile_crop_zero (env : SizeEnv) (dsName : String) (scale : ℕ)
    (st : PrepState) (f : String × String) :
    processFile env dsName scale (some 0) st f = processFile env dsName scale none st f := by
  cases hpf : dbGet st.db f.1 scale with
  | some pf =>
    have h0 : PrepInv st.db scale (some 0) f.1 :=
      ⟨pf, hpf, by intro c hc hc0; cases hc; simp at hc0⟩
    have hn : PrepInv st.db scale none f.1 := ⟨pf, hpf, by intro c hc; cases hc⟩
    rw [processFile_noop env dsName scale (some 0) st f h0,
        processFile_noop env dsName scale none st f hn]
  | none =>
    have hhit0 : prepHit st.db scale (some 0) f.1 = false := by simp [prepHit, hpf]
    have hhitn : prepHit st.db scale none f.1 = false := by simp [prepHit, hpf]
    unfold processFile
    simp only [hhit0, hhitn, Bool.false_eq_true, if_false]
    cases dbGet (processOriginal env dsName scale st f.2 f.1).db f.1 scale <;> simp

theorem prepare_crop_zero (env : SizeEnv) (dsName : String) (scale : ℕ) :
    ∀ (files : List (String × String)) (st : PrepState),
      prepare env dsName scale (some 0) files st = prepare env dsName scale none files st := by
  intro files
  induction files with
  | nil => intro st; rfl
  | cons f fs ih =>
    intro st
    show prepare env dsName scale (some 0) fs (processFile env dsName scale (some 0) st f)
      = prepare env dsName scale none fs (processFile env dsName scale none st f)
    rw [processFile_crop_zero]
    exact ih _

theorem processFile_ops_none (env : SizeEnv) (dsName : String) (scale : ℕ)
    (st : PrepState) (f : String × String) :
    ∀ op ∈ (processFile env dsName scale none st f).ops, op ∈ st.ops ∨ op.isCrop = false := by
  cases hhit : prepHit st.db scale none f.1 with
  | true =>
    unfold processFile
    simp only [hhit, if_true]
    intro op hop
    exact Or.inl hop
  | false =>
    unfold processFile
    simp only [hhit, Bool.false_eq_true, if_false]
    have hops := processOriginal_ops env dsName scale st f.2 f.1
    cases dbGet (processOriginal env dsName scale st f.2 f.1).db f.1 scale with
    | none => exact hops
    | some pf => simpa using hops

theorem prepare_ops_none (env : SizeEnv) (dsName : String) (scale : ℕ) :
    ∀ (files : List (String × String)) (st : PrepState),
      ∀ op ∈ (prepare env dsName scale none files st).ops, op ∈ st.ops ∨ op.isCrop = false := by
  intro files
  induction files with
  | nil => intro st op hop; exact Or.inl hop
  | cons f fs ih =>
    intro st op hop
    rcases ih (processFile env dsName scale none st f) op hop with h1 | h1
    · rcases processFile_ops_none env dsName scale st f op h1 with h2 | h2
      · exact Or.inl h2
      · exact Or.inr h2
    · exact Or.inr h1

/-- C10.  A crop size of `0` is treated as no crop throughout: every crop
check is a JavaScript truthiness test and `0` is falsy.  `getFiles(scale, 0)`
equals `getFiles(scale)` — returning the full uncropped triples, without
failing whenever every cached file has an entry at the scale — and
`initialize(scale, 0)` produces exactly the state `initialize(scale)`
produces: it derives no cropped artifact (no crop operation is recorded)
and records no cropped entry. -/
theorem c10_crop_zero_treated_as_no_crop (db : DatasetDatabase) (scale : ℕ)
    (fsEnv : String → List String) (env : SizeEnv) (defn : DatasetDefinition)
    (db0 : DatasetDatabase)
    (hall : ∀ fn ∈ db.map Prod.fst, (dbGet db fn scale).isSome = true) :
    getFilesSorted db scale (some 0) = getFilesSorted db scale none ∧
    (getFilesSorted db scale (some 0)).isOk = true ∧
    initDataset fsEnv env defn db0 scale (some 0) = initDataset fsEnv env defn db0 scale none ∧
    (∀ st, initDataset fsEnv env defn db0 scale (some 0) = .ok st →
      ∀ op ∈ st.ops, op.isCrop = false) := by
  have hfe : getFileEntry db scale (some 0) = getFileEntry db scale none := by
    funext fn
    unfold getFileEntry
    cases dbGet db fn scale <;> simp
  refine ⟨?_, ?_, ?_, ?_⟩
  · unfold getFilesSorted
    rw [hfe]
  · unfold getFilesSorted
    apply exceptMapM_ok_of_forall
    intro fn hfn
    have hmem : fn ∈ db.map Prod.fst :=
      (List.perm_insertionSort (· ≤ ·) (db.map Prod.fst)).mem_iff.mp hfn
    obtain ⟨file, hfile⟩ := Option.isSome_iff_exists.mp (hall fn hmem)
    refine ⟨{ original := file.original, downscaled := file.downscaled, fileName := file.fileName }, ?_⟩
    rw [hfe]
    exact getFileEntry_some_of db scale fn file hfile
  · unfold initDataset
    cases defn.path with
    | none => rfl
    | some p =>
      by_cases hpe : p = ""
      · simp [hpe]
      · simp only [hpe, if_false]
        rw [prepare_crop_zero]
  · intro st hst op hop
    unfold initDataset at hst
    cases hp : defn.path with
    | none => rw [hp] at hst; simp at hst
    | some p =>
      rw [hp] at hst
      by_cases hpe : p = ""
      · subst hpe
        simp at hst
      · simp [hpe] at hst
        rw [prepare_crop_zero] at hst
        rw [← hst] at hop
        rcases prepare_ops_none env defn.name scale _ _ op hop with h1 | h1
        · simp at h1
        · exact h1

/-- C10 witness data: a database with one file fully processed at scale 2. -/
def c10pf : ProcessedFileDefinition :=
  { original := { path := "o.png", width := 4, height := 4 }
    downscaled := { path := "d.png", width := 2, height := 2 }
    cropped := []
    fileName := "a.png" }

/-- C10 witness data: the one-file database. -/
def c10db : DatasetDatabase := [("a.png", [(2, c10pf)])]

/-- C10 witness: the crop-size-0 behaviour at a concrete database, dataset
definition and environments. -/
theorem c10_crop_zero_witness :
    (∀ fn ∈ c10db.map Prod.fst, (dbGet c10db fn 2).isSome = true) ∧
    (getFilesSorted c10db 2 (some 0) = getFilesSorted c10db 2 none ∧
     (getFilesSorted c10db 2 (some 0)).isOk = true ∧
     initDataset (fun _ => ["b.png"]) (fun _ => (5, 4)) { name := "ds", path := some "srcdir" }
         [] 2 (some 0)
       = initDataset (fun _ => ["b.png"]) (fun _ => (5, 4)) { name := "ds", path := some "srcdir" }
         [] 2 none ∧
     (∀ st, initDataset (fun _ => ["b.png"]) (fun _ => (5, 4)) { name := "ds", path := some "srcdir" }
         [] 2 (some 0) = .ok st →
       ∀ op ∈ st.ops, op.isCrop = false)) :=
  ⟨by decide,
    c10_crop_zero_treated_as_no_crop c10db 2 (fun _ => ["b.png"]) (fun _ => (5, 4))
      { name := "ds", path := some "srcdir" } [] (by decide)⟩

/-! ## C6: per-pair score aggregation -/

theorem benchProcessFile_ok (ue : UpscaleEnv) (cp : CalcPerf) (tmpDir : String)
    (st : BenchState) (t : FileTriple) (s p : JsNum)
    (hdw : ((ue t.downscaled.path).1 : ℚ) = t.original.width)
    (hdh : ((ue t.downscaled.path).2 : ℚ) = t.original.height)
    (hs : cp (upscaledPathOf tmpDir t.fileName) t.original.path (diffPathOf tmpDir t.fileName)
        Metric.ssim = .ok s)
    (hp : cp (upscaledPathOf tmpDir t.fileName) t.original.path (diffPathOf tmpDir t.fileName)
        Metric.psnr = .ok p) :
    benchProcessFile ue cp tmpDir st t
      = .ok { ssimScores := st.ssimScores ++ [s], psnrScores := st.psnrScores ++ [p],
              metricCalls := st.metricCalls + 2 } := by
  have hcond : ¬ (t.original.width ≠ ((ue t.downscaled.path).1 : ℚ)
      ∨ t.original.height ≠ ((ue t.downscaled.path).2 : ℚ)) :=
    not_or.mpr ⟨fun hne => hne hdw.symm, fun hne => hne hdh.symm⟩
  unfold benchProcessFile
  simp [hcond, hs, hp]

theorem benchProcessFile_mismatch (ue : UpscaleEnv) (cp : CalcPerf) (tmpDir : String)
    (st : BenchState) (t : FileTriple)
    (hmis : t.original.width ≠ ((ue t.downscaled.path).1 : ℚ)
      ∨ t.original.height ≠ ((ue t.downscaled.path).2 : ℚ)) :
    benchProcessFile ue cp tmpDir st t
      = .error (dimMismatchMsg t.original.width t.original.height
          (ue t.downscaled.path).1 (ue t.downscaled.path).2) := by
  unfold benchProcessFile
  simp [hmis]

theorem benchRun_all_ok (ue : UpscaleEnv) (cp : CalcPerf) (tmpDir : String) :
    ∀ (files : List FileTriple) (scores : List (ℚ × ℚ)) (st : BenchState),
      (∀ t ∈ files, ((ue t.downscaled.path).1 : ℚ) = t.original.width ∧
        ((ue t.downscaled.path).2 : ℚ) = t.original.height) →
      List.Forall₂ (fun (t : FileTriple) (sc : ℚ × ℚ) =>
        cp (upscaledPathOf tmpDir t.fileName) t.original.path (diffPathOf tmpDir t.fileName)
            Metric.ssim = .ok (.num sc.1) ∧
        cp (upscaledPathOf tmpDir t.fileName) t.original.path (diffPathOf tmpDir t.fileName)
            Metric.psnr = .ok (.num sc.2)) files scores →
      benchRun ue cp tmpDir files st =
        ({ ssimScores := st.ssimScores ++ scores.map (fun sc => JsNum.num sc.1),
           psnrScores := st.psnrScores ++ scores.map (fun sc => JsNum.num sc.2),
           metricCalls := st.metricCalls + 2 * files.length }, none) := by
  intro files
  induction files with
  | nil =>
    intro scores st _ hperf
    cases hperf
    simp [benchRun]
  | cons t ts ih =>
    intro scores st hdims hperf
    cases hperf with
    | cons hr hrest =>
      have hd := hdims t (List.mem_cons_self _ _)
      have h1 := benchProcessFile_ok ue cp tmpDir st t _ _ hd.1 hd.2 hr.1 hr.2
      show (match benchProcessFile ue cp tmpDir st t with
            | .ok st1 => benchRun ue cp tmpDir ts st1
            | .error e => (st, some e)) = _
      rw [h1]
      simp only
      rw [ih _ _ (fun u hu => hdims u (List.mem_cons_of_mem _ hu)) hrest]
      have harith : st.metricCalls + 2 + 2 * ts.length = st.metricCalls + 2 * (ts.length + 1) := by
        ring
      simp [List.append_assoc, harith]

theorem foldl_jsAdd_num (l : List ℚ) :
    ∀ a : ℚ, (l.map JsNum.num).foldl jsAdd (JsNum.num a) = .num (a + l.sum) := by
  induction l with
  | nil => intro a; simp
  | cons q qs ih =>
    intro a
    simp only [List.map_cons, List.foldl_cons, jsAdd, List.sum_cons]
    rw [ih (a + q)]
    rw [add_assoc]

theorem jsAvg_map_num (l : List ℚ) : jsAvg (l.map JsNum.num) = specMean l := by
  unfold jsAvg specMean
  rw [foldl_jsAdd_num l 0]
  cases l with
  | nil => simp [jsDivByLen]
  | cons q qs =>
    simp only [List.length_map, List.length_cons, jsDivByLen, List.sum_cons]
    simp [jsDivByLen]

/-- C6.  For a pair whose files all upscale to exactly the recorded original
dimensions and whose metric computations return the scores `scores`, the
recorded `BenchmarkResult` is the arithmetic mean — sum divided by count —
of the per-file ssim scores and of the per-file psnr scores; and a pair
with zero processed files yields `NaN` averages. -/
theorem c6_pair_result_is_mean (ue : UpscaleEnv) (cp : CalcPerf) (tmpDir : String)
    (files : List FileTriple) (scores : List (ℚ × ℚ))
    (hdims : ∀ t ∈ files, ((ue t.downscaled.path).1 : ℚ) = t.original.width ∧
      ((ue t.downscaled.path).2 : ℚ) = t.original.height)
    (hperf : List.Forall₂ (fun (t : FileTriple) (sc : ℚ × ℚ) =>
      cp (upscaledPathOf tmpDir t.fileName) t.original.path (diffPathOf tmpDir t.fileName)
          Metric.ssim = .ok (.num sc.1) ∧
      cp (upscaledPathOf tmpDir t.fileName) t.original.path (diffPathOf tmpDir t.fileName)
          Metric.psnr = .ok (.num sc.2)) files scores) :
    benchmarkPair ue cp tmpDir files
      = .ok { ssim := specMean (scores.map Prod.fst), psnr := specMean (scores.map Prod.snd) } ∧
    benchmarkPair ue cp tmpDir []
      = .ok { ssim := JsNum.nan, psnr := JsNum.nan } := by
  constructor
  · unfold benchmarkPair
    rw [benchRun_all_ok ue cp tmpDir files scores _ hdims hperf]
    simp only [List.nil_append]
    have h1 : scores.map (fun sc => JsNum.num sc.1) = (scores.map Prod.fst).map JsNum.num := by
      rw [List.map_map]
      rfl
    have h2 : scores.map (fun sc => JsNum.num sc.2) = (scores.map Prod.snd).map JsNum.num := by
      rw [List.map_map]
      rfl
    rw [h1, h2, jsAvg_map_num, jsAvg_map_num]
  · rfl

/-- C6 witness data: two cached files of original dimensions 8×8 and 6×6. -/
def c6f1 : FileTriple :=
  { original := { path := "o1.png", width := 8, height := 8 }
    downscaled := { path := "d1.png", width := 4, height := 4 }
    fileName := "f1.png" }

/-- C6 witness data: the second file. -/
def c6f2 : FileTriple :=
  { original := { path := "o2.png", width := 6, height := 6 }
    downscaled := { path := "d2.png", width := 3, height := 3 }
    fileName := "f2.png" }

/-- C6 witness data: the upscaler reproduces the original dimensions. -/
def c6ue : UpscaleEnv := fun path => if path = "d1.png" then (8, 8) else (6, 6)

/-- C6 witness data: stubbed metric scores 0.9/30 for the first file and
0.8/28 for the second. -/
def c6cp : CalcPerf := fun u _ _ m =>
  if u = "tmp/upscaled/f1.png" then
    match m with
    | .ssim => .ok (.num (9 / 10))
    | .psnr => .ok (.num 30)
  else
    match m with
    | .ssim => .ok (.num (4 / 5))
    | .psnr => .ok (.num 28)

/-- C6 witness: with stub scores 0.9/30 and 0.8/28 over two matching files,
the pair result is the mean of the per-file scores (0.85 and 29), and the
empty pair yields NaN. -/
theorem c6_pair_result_witness :
    benchmarkPair c6ue c6cp "tmp" [c6f1, c6f2]
      = .ok { ssim := specMean ([((9 : ℚ) / 10, (30 : ℚ)), (4 / 5, 28)].map Prod.fst),
              psnr := specMean ([((9 : ℚ) / 10, (30 : ℚ)), (4 / 5, 28)].map Prod.snd) } ∧
    benchmarkPair c6ue c6cp "tmp" [] = .ok { ssim := JsNum.nan, psnr := JsNum.nan } :=
  c6_pair_result_is_mean c6ue c6cp "tmp" [c6f1, c6f2] [(9 / 10, 30), (4 / 5, 28)]
    (by
      intro t ht
      rcases List.mem_cons.mp ht with rfl | ht2
      · constructor <;> norm_num [c6ue, c6f1]
      · rcases List.mem_cons.mp ht2 with rfl | ht3
        · have hne : ¬("d2.png" : String) = "d1.png" := by decide
          constructor <;> norm_num [c6ue, c6f2, hne]
        · simp at ht3)
    (.cons ⟨rfl, rfl⟩ (.cons ⟨rfl, rfl⟩ .nil))

/-! ## C7: dimension mismatch rejects the pair -/

theorem benchRun_mismatch (ue : UpscaleEnv) (cp : CalcPerf) (tmpDir : String)
    (t : FileTriple)
    (hmis : t.original.width ≠ ((ue t.downscaled.path).1 : ℚ)
      ∨ t.original.height ≠ ((ue t.downscaled.path).2 : ℚ)) :
    ∀ (other : List FileTriple) (post : List FileTriple) (st : BenchState),
      (∀ u ∈ other, ((ue u.downscaled.path).1 : ℚ) = u.original.width ∧
        ((ue u.downscaled.path).2 : ℚ) = u.original.height) →
      (∀ u ∈ other, ∃ s p,
        cp (upscaledPathOf tmpDir u.fileName) u.original.path (diffPathOf tmpDir u.fileName)
            Metric.ssim = .ok s ∧
        cp (upscaledPathOf tmpDir u.fileName) u.original.path (diffPathOf tmpDir u.fileName)
            Metric.psnr = .ok p) →
      ∃ st1, benchRun ue cp tmpDir (other ++ t :: post) st
          = (st1, some (dimMismatchMsg t.original.width t.original.height
              (ue t.downscaled.path).1 (ue t.downscaled.path).2))
        ∧ st1.metricCalls = st.metricCalls + 2 * other.length := by
  intro other
  induction other with
  | nil =>
    intro post st _ _
    refine ⟨st, ?_, by simp⟩
    show (match benchProcessFile ue cp tmpDir st t with
          | .ok st1 => benchRun ue cp tmpDir post st1
          | .error e => (st, some e)) = _
    rw [benchProcessFile_mismatch ue cp tmpDir st t hmis]
  | cons u us ih =>
    intro post st hdims hperf
    have hd := hdims u (List.mem_cons_self _ _)
    obtain ⟨s, p, hs, hp⟩ := hperf u (List.mem_cons_self _ _)
    have h1 := benchProcessFile_ok ue cp tmpDir st u s p hd.1 hd.2 hs hp
    obtain ⟨st1, hrun, hcount⟩ := ih post
      { ssimScores := st.ssimScores ++ [s], psnrScores := st.psnrScores ++ [p],
        metricCalls := st.metricCalls + 2 }
      (fun v hv => hdims v (List.mem_cons_of_mem _ hv))
      (fun v hv => hperf v (List.mem_cons_of_mem _ hv))
    refine ⟨st1, ?_, ?_⟩
    · show (match benchProcessFile ue cp tmpDir st u with
            | .ok stx => benchRun ue cp tmpDir (us ++ t :: post) stx
            | .error e => (st, some e)) = _
      rw [h1]
      exact hrun
    · rw [hcount]
      simp only [List.length_cons]
      ring

theorem benchmarkAll_member_error (ue : UpscaleEnv) (cp : CalcPerf) (tmpDir : String) :
    ∀ (pairs : List (String × List FileTriple)) (nm : String) (files : List FileTriple)
      (e : String),
      (nm, files) ∈ pairs → benchmarkPair ue cp tmpDir files = .error e →
      (benchmarkAll ue cp tmpDir pairs).isOk = false := by
  intro pairs
  induction pairs with
  | nil => intro nm files e hmem _; simp at hmem
  | cons pr rest ih =>
    intro nm files e hmem herr
    rcases List.mem_cons.mp hmem with rfl | hmem2
    · show (match benchmarkPair ue cp tmpDir files with
            | .error e => Except.error e
            | .ok r =>
              match benchmarkAll ue cp tmpDir rest with
              | .error e => Except.error e
              | .ok rs => Except.ok ((nm, r) :: rs)).isOk = false
      rw [herr]
      rfl
    · obtain ⟨nm1, files1⟩ := pr
      show (match benchmarkPair ue cp tmpDir files1 with
            | .error e => Except.error e
            | .ok r =>
              match benchmarkAll ue cp tmpDir rest with
              | .error e => Except.error e
              | .ok rs => Except.ok ((nm1, r) :: rs)).isOk = false
      cases benchmarkPair ue cp tmpDir files1 with
      | error e1 => rfl
      | ok r =>
        have hrest := ih nm files e hmem2 herr
        cases hr : benchmarkAll ue cp tmpDir rest with
        | error e2 => rfl
        | ok rs => rw [hr] at hrest; simp [Except.isOk, Except.toBool] at hrest

/-- C7.  If some file of a pair upscales to dimensions different from its
recorded original dimensions — and the files before it in the (strictly
sequential) loop all succeed — the pair's benchmark rejects with the
dimension-mismatch error; no metric is computed for the mismatching file
(exactly two metric computations were performed per preceding file and
none for it), and the whole run fails before any result mapping is
produced, so no result entry is recorded for the pair. -/
theorem c7_dimension_mismatch_rejects (ue : UpscaleEnv) (cp : CalcPerf) (tmpDir : String)
    (pre post : List FileTriple) (t : FileTriple)
    (hmis : t.original.width ≠ ((ue t.downscaled.path).1 : ℚ)
      ∨ t.original.height ≠ ((ue t.downscaled.path).2 : ℚ))
    (hdims : ∀ u ∈ pre, ((ue u.downscaled.path).1 : ℚ) = u.original.width ∧
      ((ue u.downscaled.path).2 : ℚ) = u.original.height)
    (hperf : ∀ u ∈ pre, ∃ s p,
      cp (upscaledPathOf tmpDir u.fileName) u.original.path (diffPathOf tmpDir u.fileName)
          Metric.ssim = .ok s ∧
      cp (upscaledPathOf tmpDir u.fileName) u.original.path (diffPathOf tmpDir u.fileName)
          Metric.psnr = .ok p) :
    benchmarkPair ue cp tmpDir (pre ++ t :: post)
      = .error (dimMismatchMsg t.original.width t.original.height
          (ue t.downscaled.path).1 (ue t.downscaled.path).2) ∧
    (benchRun ue cp tmpDir (pre ++ t :: post)
        { ssimScores := [], psnrScores := [], metricCalls := 0 }).1.metricCalls
      = 2 * pre.length ∧
    (∀ (pairs : List (String × List FileTriple)) (nm : String),
      (nm, pre ++ t :: post) ∈ pairs → (benchmarkAll ue cp tmpDir pairs).isOk = false) := by
  obtain ⟨st1, hrun, hcount⟩ := benchRun_mismatch ue cp tmpDir t hmis pre post
    { ssimScores := [], psnrScores := [], metricCalls := 0 } hdims hperf
  have hpair : benchmarkPair ue cp tmpDir (pre ++ t :: post)
      = .error (dimMismatchMsg t.original.width t.original.height
          (ue t.downscaled.path).1 (ue t.downscaled.path).2) := by
    unfold benchmarkPair
    rw [hrun]
  refine ⟨hpair, ?_, ?_⟩
  · rw [hrun]
    simpa using hcount
  · intro pairs nm hmem
    exact benchmarkAll_member_error ue cp tmpDir pairs nm _ _ hmem hpair

/-- C7 witness data: a file whose upscaled output is 7×8 while the recorded
original is 8×8. -/
def c7bad : FileTriple :=
  { original := { path := "o.png", width := 8, height := 8 }
    downscaled := { path := "d.png", width := 4, height := 4 }
    fileName := "bad.png" }

/-- C7 witness: with no preceding files, the pair containing the
mismatching file rejects, zero metric computations happen, and a run over
that single pair records no result. -/
theorem c7_dimension_mismatch_witness :
    benchmarkPair (fun _ => (7, 8)) (fun _ _ _ _ => .ok JsNum.nan) "tmp" ([] ++ c7bad :: [])
      = .error (dimMismatchMsg c7bad.original.width c7bad.original.height
          ((fun (_ : String) => ((7 : ℕ), (8 : ℕ))) c7bad.downscaled.path).1
          ((fun (_ : String) => ((7 : ℕ), (8 : ℕ))) c7bad.downscaled.path).2) ∧
    (benchRun (fun _ => (7, 8)) (fun _ _ _ _ => .ok JsNum.nan) "tmp" ([] ++ c7bad :: [])
        { ssimScores := [], psnrScores := [], metricCalls := 0 }).1.metricCalls
      = 2 * List.length ([] : List FileTriple) ∧
    (∀ (pairs : List (String × List FileTriple)) (nm : String),
      (nm, [] ++ c7bad :: []) ∈ pairs →
      (benchmarkAll (fun _ => (7, 8)) (fun _ _ _ _ => .ok JsNum.nan) "tmp" pairs).isOk = false) :=
  c7_dimension_mismatch_rejects (fun _ => (7, 8)) (fun _ _ _ _ => .ok JsNum.nan) "tmp" [] [] c7bad
    (Or.inl (by norm_num [c7bad]))
    (by intro u hu; simp at hu)
    (by intro u hu; simp at hu)

end UpscalerJS
